import Mathlib

/-
Verification of the bidclub_bot routing-and-transform engine (src/bot.py).

The Python module keeps its mutable configuration in the globals
ORIGIN_CHATS, DESTINATION_CHATS, ADMINS, IS_PAUSED, plus the JSON file
config.json.  We embed that state as `BotState` (the file content as
`FileState`), and each handler as a pure function from its inputs and the
current state to its result and the next state.  Replies sent to the user
are modelled only where a claim needs them (denial flags); the Telegram
transport itself is outside the model.  Python sets become `Finset`;
`list(someSet)` (whose iteration order CPython does not specify) is
rendered as the sorted enumeration of the set, a deterministic choice that
no claim's truth depends on.
-/

namespace BidBot

/-- Sorted enumeration of a finite set, the deterministic stand-in for
CPython's `list(set)` iteration order.  Insertion sort is structurally
recursive, so this evaluates inside the kernel. -/
def sortedList {α : Type*} [LinearOrder α] (s : Finset α) : List α :=
  Quot.liftOn s.val (fun l => l.insertionSort (· ≤ ·)) fun _ _ h =>
    List.eq_of_perm_of_sorted
      ((List.perm_insertionSort _ _).trans (h.trans (List.perm_insertionSort _ _).symm))
      (List.sorted_insertionSort _ _) (List.sorted_insertionSort _ _)

/-- States of the python-telegram-bot ConversationHandler in bot.py:
`idle` is ConversationHandler.END (no pending dialog), the other three are
the SET_ORIGIN, SET_DESTINATION, ADD_ADMIN constants (bot.py line 81). -/
inductive DialogState
  | idle
  | set_origin
  | set_destination
  | add_admin
deriving DecidableEq

/-- Content of the backing file config.json as `load_config` (bot.py 48-62)
can encounter it: missing, present but not parseable as the expected JSON
record, or a parsed record in which each of the three keys may be absent
(`dict.get` with a default). -/
inductive FileState
  | absent
  | malformed
  | record (origin_chats destination_chats : Option (List Int)) (admins : Option (List String))
deriving DecidableEq

/-- The exception `load_config` propagates when config.json exists but
`json.load` fails: only FileNotFoundError is caught in bot.py 57. -/
inductive LoadError
  | jsonDecodeError
deriving DecidableEq

/-- The dict returned by `load_config` (bot.py 52-62). -/
structure Cfg where
  ORIGIN_CHATS : Finset Int
  DESTINATION_CHATS : Finset Int
  ADMINS : Finset String
deriving DecidableEq

/-- The module-level mutable state of bot.py: the three configuration
globals (lines 75-77), the IS_PAUSED flag (line 78), and the current
content of config.json. -/
structure BotState where
  ORIGIN_CHATS : Finset Int
  DESTINATION_CHATS : Finset Int
  ADMINS : Finset String
  IS_PAUSED : Bool
  file : FileState
deriving DecidableEq

/-- bot.py 48-62: `load_config`.  A missing file falls back to empty sets
with ADMINS := SUPER_ADMINS; a present record is read with `dict.get`
defaults (`[]`, `[]`, `list(SUPER_ADMINS)`); a present but unparseable
file raises json.JSONDecodeError, which the `except FileNotFoundError`
clause does not catch. -/
def load_config (SUPER_ADMINS : Finset String) : FileState → Except LoadError Cfg
  | FileState.absent =>
      Except.ok ⟨∅, ∅, SUPER_ADMINS⟩
  | FileState.malformed =>
      Except.error LoadError.jsonDecodeError
  | FileState.record o d a =>
      Except.ok ⟨(o.getD []).toFinset, (d.getD []).toFinset,
        (match a with
          | some l => l.toFinset
          | none => SUPER_ADMINS)⟩

/-- bot.py 74-78: module initialisation.  The globals are taken from
`load_config` and IS_PAUSED starts at False; if `load_config` raises the
process dies before any state exists. -/
def startup (SUPER_ADMINS : Finset String) (fs : FileState) : Except LoadError BotState :=
  (load_config SUPER_ADMINS fs).map fun c =>
    ⟨c.ORIGIN_CHATS, c.DESTINATION_CHATS, c.ADMINS, false, fs⟩

/-- bot.py 65-71: `save_config` overwrites config.json with exactly the
three keys origin_chats, destination_chats, admins, each `list(set)`;
the sorted enumeration stands in for CPython's set iteration order. -/
def save_config (s : BotState) : BotState :=
  { s with file := (FileState.record
      (some (sortedList s.ORIGIN_CHATS))
      (some (sortedList s.DESTINATION_CHATS))
      (some (sortedList s.ADMINS))) }

/-- bot.py 99-106: `check_admin`.  True iff the user is in SUPER_ADMINS or
in ADMINS - SUPER_ADMINS; when it returns false the source has already
sent the "Permission denied" reply to the user. -/
def check_admin (SUPER_ADMINS : Finset String) (s : BotState) (user : String) : Bool :=
  decide (user ∈ SUPER_ADMINS ∨ user ∈ s.ADMINS \ SUPER_ADMINS)

/-- Value of a string of ASCII decimal digits, as Python `int` computes it
on such input. -/
def digitsToNat (cs : List Char) : Nat :=
  cs.foldl (fun n c => 10 * n + (c.toNat - 48)) 0

/-- Python `int(token)` on a whitespace-free token: an optional single
sign followed by at least one decimal digit parses, anything else raises
ValueError (modelled as `none`). -/
def pythonInt : List Char → Option Int
  | [] => none
  | '+' :: rest =>
      if rest ≠ [] ∧ rest.all Char.isDigit then some (digitsToNat rest) else none
  | '-' :: rest =>
      if rest ≠ [] ∧ rest.all Char.isDigit then some (-(digitsToNat rest : Int)) else none
  | cs =>
      if cs ≠ [] ∧ cs.all Char.isDigit then some (digitsToNat cs) else none

/-- Worker for `splitWs`, accumulating the current token reversed. -/
def splitWsAux : List Char → List Char → List (List Char)
  | [], acc => if acc = [] then [] else [acc.reverse]
  | c :: rest, acc =>
      if c.isWhitespace then
        if acc = [] then splitWsAux rest [] else acc.reverse :: splitWsAux rest []
      else
        splitWsAux rest (c :: acc)

/-- Python `str.split()` with no argument: split on runs of whitespace,
discarding empty tokens. -/
def splitWs (cs : List Char) : List (List Char) :=
  splitWsAux cs []

/-- The list comprehension `[int(cid) for cid in user_input.split()]`
(bot.py 138): the first ValueError aborts the whole list. -/
def parseIds : List (List Char) → Option (List Int)
  | [] => some []
  | t :: ts =>
      match pythonInt t, parseIds ts with
      | some i, some is => some (i :: is)
      | _, _ => none

/-- bot.py 126-132: `set_origin_start`.  The third result component is
true iff a permission-denied reply was sent; `args` models `context.args`,
which the source never reads. -/
def set_origin_start (SUPER_ADMINS : Finset String) (user : String)
    (args : List String) (s : BotState) : DialogState × BotState × Bool :=
  if check_admin SUPER_ADMINS s user = false then (DialogState.idle, s, true)
  else (DialogState.set_origin, s, false)

/-- bot.py 134-156: `set_origin_handle`.  On a full parse the origin set
is replaced wholesale and the config saved; a ValueError leaves all state
untouched; every branch returns ConversationHandler.END.  The
`get_chat_name` calls catch their own exceptions, so the handler's generic
except branch is unreachable. -/
def set_origin_handle (user_input : List Char) (s : BotState) : DialogState × BotState :=
  match parseIds (splitWs user_input) with
  | some channel_ids =>
      (DialogState.idle, save_config { s with ORIGIN_CHATS := channel_ids.toFinset })
  | none => (DialogState.idle, s)

/-- bot.py 158-164: `set_destination_start`, mirror of `set_origin_start`. -/
def set_destination_start (SUPER_ADMINS : Finset String) (user : String)
    (args : List String) (s : BotState) : DialogState × BotState × Bool :=
  if check_admin SUPER_ADMINS s user = false then (DialogState.idle, s, true)
  else (DialogState.set_destination, s, false)

/-- bot.py 166-188: `set_destination_handle`, mirror of `set_origin_handle`. -/
def set_destination_handle (user_input : List Char) (s : BotState) : DialogState × BotState :=
  match parseIds (splitWs user_input) with
  | some channel_ids =>
      (DialogState.idle, save_config { s with DESTINATION_CHATS := channel_ids.toFinset })
  | none => (DialogState.idle, s)

/-- bot.py 190-198: `add_admin_start`.  Entry requires super-admin status
(not mere admin); the third component is true iff the denial reply was
sent; `args` models the unread `context.args`. -/
def add_admin_start (SUPER_ADMINS : Finset String) (user : String)
    (args : List String) (s : BotState) : DialogState × BotState × Bool :=
  if user ∉ SUPER_ADMINS then (DialogState.idle, s, true)
  else (DialogState.add_admin, s, false)

/-- bot.py 200-218: `add_admin_handle`.  A payload not starting with '@'
replies and returns ADD_ADMIN (the dialog stays open); otherwise the
marker is stripped, the handle merged into ADMINS, the config saved, and
END returned.  `get_user_name` catches its own exceptions, so the
handler's except branch is unreachable. -/
def add_admin_handle (user_input : List Char) (s : BotState) : DialogState × BotState :=
  if user_input.head? = some '@' then
    (DialogState.idle,
      save_config { s with ADMINS := insert (String.mk (user_input.drop 1)) s.ADMINS })
  else
    (DialogState.add_admin, s)

/-- bot.py 220-224: `cancel` ends any pending dialog without mutation. -/
def cancel (s : BotState) : DialogState × BotState :=
  (DialogState.idle, s)

/-- bot.py 226-255: `rm_admin`.  After the admin gate, regular admins
(ADMINS - SUPER_ADMINS) are listed; `list(set)` is rendered as the sorted
enumeration.  A first argument that `str.isdigit()` accepts selects the
1-based index; in-range selections are removed and the config saved.  The
second component is true iff the permission-denied reply was sent. -/
def rm_admin (SUPER_ADMINS : Finset String) (user : String)
    (args : List String) (s : BotState) : BotState × Bool :=
  if check_admin SUPER_ADMINS s user = false then (s, true)
  else if s.ADMINS \ SUPER_ADMINS = ∅ then (s, false)
  else
    match args with
    | [] => (s, false)
    | a :: _ =>
      if a.data ≠ [] ∧ a.data.all Char.isDigit then
        let admin_list := sortedList (s.ADMINS \ SUPER_ADMINS)
        let idx : Int := (digitsToNat a.data : Int) - 1
        if 0 ≤ idx ∧ idx < admin_list.length then
          let removed := admin_list.getD idx.toNat (String.mk [])
          if removed ∈ SUPER_ADMINS ∧ user ∉ SUPER_ADMINS then (s, false)
          else (save_config { s with ADMINS := s.ADMINS.erase removed }, false)
        else (s, false)
      else (s, false)

/-- bot.py 257-265: `pause` sets IS_PAUSED and rewrites config.json. -/
def pause (SUPER_ADMINS : Finset String) (user : String) (s : BotState) : BotState × Bool :=
  if check_admin SUPER_ADMINS s user = false then (s, true)
  else (save_config { s with IS_PAUSED := true }, false)

/-- bot.py 267-275: `resume` clears IS_PAUSED and rewrites config.json. -/
def resume (SUPER_ADMINS : Finset String) (user : String) (s : BotState) : BotState × Bool :=
  if check_admin SUPER_ADMINS s user = false then (s, true)
  else (save_config { s with IS_PAUSED := false }, false)

/-- bot.py 277-289: `status` reports and mutates nothing. -/
def status (SUPER_ADMINS : Finset String) (user : String) (s : BotState) : BotState × Bool :=
  if check_admin SUPER_ADMINS s user = false then (s, true)
  else (s, false)

/-- Python `pattern in text`: substring occurrence. -/
def containsSub (pat : List Char) : List Char → Bool
  | [] => pat.isPrefixOf []
  | c :: rest => pat.isPrefixOf (c :: rest) || containsSub pat rest

/-- Worker for `replaceAll`: one unit of fuel per character scanned, so
fuel `s.length` always suffices; the `pat.isEmpty` guard is never hit by
the nonempty patterns of TEXT_RULES. -/
def replaceAllAux (pat repl : List Char) : Nat → List Char → List Char
  | 0, s => s
  | _ + 1, [] => []
  | fuel + 1, c :: rest =>
      if !pat.isEmpty && pat.isPrefixOf (c :: rest) then
        repl ++ replaceAllAux pat repl fuel ((c :: rest).drop pat.length)
      else
        c :: replaceAllAux pat repl fuel rest

/-- Python `text.replace(pat, repl)`: every non-overlapping occurrence of
`pat`, scanned left to right, becomes `repl`. -/
def replaceAll (pat repl s : List Char) : List Char :=
  replaceAllAux pat repl s.length s

def ruleTweetCn : String := "发布新推文"

def ruleTweetEn : String := "posted a new tweet"

def ruleRtCn : String := "转发了推文"

def ruleRtEn : String := "retweeted a tweet"

def ruleQtCn : String := "引用了推文"

def ruleQtEn : String := "quoted a tweet"

/-- bot.py 84-88: TEXT_RULES.  A Python dict preserves insertion order, so
the rule table is this ordered list. -/
def TEXT_RULES : List (List Char × List Char) :=
  [(ruleTweetCn.data, ruleTweetEn.data),
   (ruleRtCn.data, ruleRtEn.data),
   (ruleQtCn.data, ruleQtEn.data)]

/-- bot.py 304-308: the loop over TEXT_RULES.items() — the first rule
whose pattern occurs in the text rewrites all its occurrences and breaks;
no match leaves processed_text as None. -/
def applyRules : List (List Char × List Char) → List Char → Option (List Char)
  | [], _ => none
  | (pat, repl) :: rules, text =>
      if containsSub pat text then some (replaceAll pat repl text)
      else applyRules rules text

def markerS : String := "[Alpha]"

/-- The Text Transform Engine of bot.py 300-310: text must start with the
"[Alpha]" marker, then the first matching rule of TEXT_RULES is applied;
otherwise no output. -/
def transform (text : List Char) : Option (List Char) :=
  if markerS.data.isPrefixOf text then applyRules TEXT_RULES text else none

/-- One `context.bot.send_message` attempt in the fan-out loop of
bot.py 313-318: `ok` is false when the call raised (the except clause logs
the destination and cause and continues). -/
structure SendOutcome where
  dest : Int
  ok : Bool
  text : List Char
deriving DecidableEq

def channelType : String := "channel"

/-- bot.py 291-318: `process_message`.  `sendFails` is the oracle saying
which destinations' send_message calls raise; gates: pause/empty-set gate,
origin-and-chat-type gate, marker gate (inside `transform`), the falsy
check on processed_text, then the fan-out loop over DESTINATION_CHATS
(sorted enumeration standing in for set order).  The state is returned
unchanged: the source mutates nothing here. -/
def process_message (sendFails : Int → Bool) (s : BotState) (chatId : Int)
    (ctype : String) (text : List Char) : List SendOutcome × BotState :=
  if s.IS_PAUSED = true ∨ s.ORIGIN_CHATS = ∅ ∨ s.DESTINATION_CHATS = ∅ then ([], s)
  else if chatId ∉ s.ORIGIN_CHATS ∨ ctype ≠ channelType then ([], s)
  else
    match transform text with
    | none => ([], s)
    | some processed =>
        if processed = [] then ([], s)
        else (((sortedList s.DESTINATION_CHATS).map
          fun d => SendOutcome.mk d (!sendFails d) processed), s)

/-- One administrative operation of the kind claim C2 quantifies over:
an add_admin dialog run by `actor` with the given payload, or an rm_admin
command by `actor` with the given arguments. -/
inductive AdminOp
  | add (actor : String) (payload : List Char)
  | rm (actor : String) (args : List String)

/-- Executes one `AdminOp` through the source handlers: the add path runs
only if `add_admin_start` actually opened the dialog for the actor. -/
def applyOp (SUPER_ADMINS : Finset String) (s : BotState) : AdminOp → BotState
  | AdminOp.add actor payload =>
      if (add_admin_start SUPER_ADMINS actor [] s).1 = DialogState.add_admin then
        (add_admin_handle payload s).2
      else s
  | AdminOp.rm actor args => (rm_admin SUPER_ADMINS actor args s).1

/-- True for file states in which the admins key is not explicitly
present, so `load_config` falls back to SUPER_ADMINS for ADMINS. -/
def admins_key_absent : FileState → Bool
  | FileState.absent => true
  | FileState.record _ _ none => true
  | _ => false

/-- Admin set of a startup result, empty when startup raised. -/
def startup_admins : Except LoadError BotState → Finset String
  | Except.ok s => s.ADMINS
  | Except.error _ => ∅

def aliceS : String := "alice"

def bobS : String := "bob"

def atBobS : String := "@bob"

def badHandleS : String := "username"

def oneS : String := "1"

def minus100S : String := "-100"

def exInS : String := "[Alpha] 发布新推文 foo"

def exOutS : String := "[Alpha] posted a new tweet foo"

def exTwiceInS : String := "[Alpha] 发布新推文,发布新推文"

def exTwiceOutS : String := "[Alpha] posted a new tweet,posted a new tweet"

def noMarkerS : String := "no marker here"

def noRuleS : String := "[Alpha] plain text"

def exRtInS : String := "[Alpha] 转发了推文 bar"

def exQtInS : String := "[Alpha] 引用了推文 baz"

/-- Fresh state: empty configuration, no admins, file missing. -/
def demoState : BotState := BotState.mk ∅ ∅ ∅ false FileState.absent

/-- State whose only admin is the super admin alice. -/
def demoAdminState : BotState := BotState.mk ∅ ∅ {aliceS} false FileState.absent

/-- Fully configured but paused state. -/
def pausedState : BotState := BotState.mk {1} {2} {aliceS} true FileState.absent

/-- Fully configured running state. -/
def readyState : BotState := BotState.mk {1} {2} {aliceS} false FileState.absent

/-- Running state with no destinations. -/
def noDestState : BotState := BotState.mk {1} ∅ {aliceS} false FileState.absent

/-- Running state with three destinations. -/
def fanoutState : BotState := BotState.mk {10} {1, 2, 3} {aliceS} false FileState.absent

/-- Failure oracle: delivery to destination 2 raises, the others succeed. -/
def failsTwo : Int → Bool := fun d => d == 2

/-- Failure oracle: every delivery succeeds. -/
def failNone : Int → Bool := fun _ => false

/-- Membership in the sorted enumeration agrees with set membership. -/
theorem mem_sortedList {α : Type*} [LinearOrder α] (s : Finset α) (a : α) :
    a ∈ sortedList s ↔ a ∈ s := by
  obtain ⟨m, hm⟩ := s
  revert hm
  refine Quot.inductionOn m ?_
  intro l hl
  show a ∈ l.insertionSort (· ≤ ·) ↔ _
  rw [List.mem_insertionSort]
  exact Iff.rfl

/-- The sorted enumeration of a finite set has no duplicates. -/
theorem sortedList_nodup {α : Type*} [LinearOrder α] (s : Finset α) :
    (sortedList s).Nodup := by
  obtain ⟨m, hm⟩ := s
  revert hm
  refine Quot.inductionOn m ?_
  intro l hl
  exact (List.perm_insertionSort (· ≤ ·) l).nodup_iff.mpr (Multiset.coe_nodup.mp hl)

/-- The rule loop yields nothing when no pattern occurs in the text. -/
theorem applyRules_eq_none (rules : List (List Char × List Char)) (text : List Char)
    (h : ∀ r ∈ rules, containsSub r.1 text = false) : applyRules rules text = none := by
  induction rules with
  | nil => rfl
  | cons r rules ih =>
      obtain ⟨pat, repl⟩ := r
      have hr : containsSub pat text = false := h _ (List.mem_cons_self _ _)
      simp only [applyRules, hr, Bool.false_eq_true, if_false]
      exact ih fun q hq => h q (List.mem_cons_of_mem _ hq)

/-- The rule loop applies exactly the first rule whose pattern occurs:
if rule number i matches and no earlier rule does, the result is rule i's
replacement applied to the text. -/
theorem applyRules_first (rules : List (List Char × List Char)) (text : List Char) :
    ∀ (i : Nat) (hi : i < rules.length),
      containsSub (rules.get ⟨i, hi⟩).1 text = true →
      (∀ (j : Nat) (hj : j < i), containsSub (rules.get ⟨j, Nat.lt_trans hj hi⟩).1 text = false) →
      applyRules rules text =
        some (replaceAll (rules.get ⟨i, hi⟩).1 (rules.get ⟨i, hi⟩).2 text) := by
  induction rules with
  | nil =>
      intro i hi
      exact absurd hi (Nat.not_lt_zero i)
  | cons r rules ih =>
      intro i hi hocc hprev
      obtain ⟨pat, repl⟩ := r
      cases i with
      | zero =>
          simp only [List.get] at hocc ⊢
          simp [applyRules, hocc]
      | succ j =>
          have h0 : containsSub pat text = false := by
            simpa using hprev 0 (Nat.succ_pos j)
          simp only [applyRules, h0, Bool.false_eq_true, if_false, List.get]
          exact ih j (Nat.lt_of_succ_lt_succ hi) hocc
            fun k hk => by simpa using hprev (k + 1) (Nat.succ_lt_succ hk)

/-- C1 counterexample: with the AddAdmin dialog awaiting input, the payload
"username" (no '@' marker) makes `add_admin_handle` return ADD_ADMIN, so
the dialog stays in AwaitingInput instead of returning to Idle. -/
theorem C1_counterexample :
    (add_admin_handle badHandleS.data demoState).1 = DialogState.add_admin ∧
    (add_admin_handle badHandleS.data demoState).1 ≠ DialogState.idle := by decide

/-- C1 (amended): a SetOrigin or SetDestination payload always returns the
dialog to Idle (success and validation failure alike), and cancel returns
to Idle; an AddAdmin payload returns to Idle exactly when it starts with
'@' — a payload without the marker keeps the dialog in AwaitingInput. -/
theorem C1_dialog_termination (payload : List Char) (s : BotState) :
    (set_origin_handle payload s).1 = DialogState.idle ∧
    (set_destination_handle payload s).1 = DialogState.idle ∧
    ((add_admin_handle payload s).1 = DialogState.idle ↔ payload.head? = some '@') ∧
    (cancel s).1 = DialogState.idle := by
  refine ⟨?_, ?_, ?_, rfl⟩
  · rcases hp : parseIds (splitWs payload) with _ | ids <;> simp [set_origin_handle, hp]
  · rcases hp : parseIds (splitWs payload) with _ | ids <;> simp [set_destination_handle, hp]
  · by_cases hh : payload.head? = some '@' <;> simp [add_admin_handle, hh]

/-- C3 counterexample: with super admin alice, loading a present but
unparseable record raises (json.JSONDecodeError propagates) instead of
returning the empty-default configuration. -/
theorem C3_counterexample :
    load_config {aliceS} FileState.malformed = Except.error LoadError.jsonDecodeError ∧
    load_config {aliceS} FileState.malformed ≠
      Except.ok (Cfg.mk ∅ ∅ {aliceS}) := by
  refine ⟨rfl, fun h => ?_⟩
  exact Except.noConfusion h

/-- C3 (amended): Load falls back to the empty-default configuration with
Super Admins pre-seeded only when the backing file is absent; a file that
exists but is not parseable makes Load raise, since only FileNotFoundError
is caught. -/
theorem C3_load_fails_open_only_when_absent (SUPER_ADMINS : Finset String) :
    load_config SUPER_ADMINS FileState.absent = Except.ok (Cfg.mk ∅ ∅ SUPER_ADMINS) ∧
    load_config SUPER_ADMINS FileState.malformed = Except.error LoadError.jsonDecodeError :=
  ⟨rfl, rfl⟩

/-- C4 counterexample: the privileged super admin alice invokes set_origin
with the inline argument "-100"; the command enters the AwaitingInput
dialog state and performs no mutation and no persistence, so no
single-shot path exists. -/
theorem C4_counterexample :
    set_origin_start {aliceS} aliceS [minus100S] demoAdminState =
      (DialogState.set_origin, demoAdminState, false) ∧
    demoAdminState.ORIGIN_CHATS = ∅ ∧
    demoAdminState.file = FileState.absent := by decide

/-- C4 (amended): the three entry commands ignore any arguments attached
to the command: their result is independent of the arguments, the state is
never mutated, and a privileged invocation always enters the AwaitingInput
dialog state (an unprivileged one stays Idle); the interactive dialog is
the only mutation path. -/
theorem C4_entry_ignores_args (SUPER_ADMINS : Finset String) (user : String)
    (args args2 : List String) (s : BotState) :
    (set_origin_start SUPER_ADMINS user args s = set_origin_start SUPER_ADMINS user args2 s ∧
      (set_origin_start SUPER_ADMINS user args s).2.1 = s ∧
      ((set_origin_start SUPER_ADMINS user args s).1 = DialogState.set_origin ↔
        check_admin SUPER_ADMINS s user = true)) ∧
    (set_destination_start SUPER_ADMINS user args s =
        set_destination_start SUPER_ADMINS user args2 s ∧
      (set_destination_start SUPER_ADMINS user args s).2.1 = s ∧
      ((set_destination_start SUPER_ADMINS user args s).1 = DialogState.set_destination ↔
        check_admin SUPER_ADMINS s user = true)) ∧
    (add_admin_start SUPER_ADMINS user args s = add_admin_start SUPER_ADMINS user args2 s ∧
      (add_admin_start SUPER_ADMINS user args s).2.1 = s ∧
      ((add_admin_start SUPER_ADMINS user args s).1 = DialogState.add_admin ↔
        user ∈ SUPER_ADMINS)) := by
  by_cases hc : check_admin SUPER_ADMINS s user = false <;>
    by_cases hu : user ∈ SUPER_ADMINS <;>
      simp [set_origin_start, set_destination_start, add_admin_start, hc, hu]

/-- An rm_admin invocation never removes a super admin: any super admin in
the admin set is still there afterwards, whatever the actor, the arguments
and the state. -/
theorem rm_admin_keeps_super (SUPER_ADMINS : Finset String) (user : String)
    (args : List String) (s : BotState) (u : String)
    (hu : u ∈ SUPER_ADMINS) (hm : u ∈ s.ADMINS) :
    u ∈ ((rm_admin SUPER_ADMINS user args s).1).ADMINS := by
  unfold rm_admin
  split
  · exact hm
  split
  · exact hm
  split
  · exact hm
  next a rest =>
    split
    next h3 =>
      dsimp only
      split
      next h4 =>
        have hlen : ((digitsToNat a.data : Int) - 1).toNat <
            (sortedList (s.ADMINS \ SUPER_ADMINS)).length := by
          obtain ⟨h41, h42⟩ := h4
          omega
        have hrm : (sortedList (s.ADMINS \ SUPER_ADMINS)).getD
            ((digitsToNat a.data : Int) - 1).toNat (String.mk []) ∈ s.ADMINS \ SUPER_ADMINS := by
          rw [List.getD_eq_getElem _ _ hlen]
          exact (mem_sortedList _ _).mp (List.getElem_mem hlen)
        have hrs : (sortedList (s.ADMINS \ SUPER_ADMINS)).getD
            ((digitsToNat a.data : Int) - 1).toNat (String.mk []) ∉ SUPER_ADMINS :=
          (Finset.mem_sdiff.mp hrm).2
        split
        next h5 => exact hm
        next h5 =>
          have hne : u ≠ (sortedList (s.ADMINS \ SUPER_ADMINS)).getD
              ((digitsToNat a.data : Int) - 1).toNat (String.mk []) :=
            fun he => hrs (he ▸ hu)
          exact Finset.mem_erase.mpr ⟨hne, hm⟩
      next h4 => exact hm
    next h3 => exact hm

/-- Every administrative operation preserves the super-admins-are-admins
invariant. -/
theorem applyOp_super_subset (SUPER_ADMINS : Finset String) (s : BotState) (op : AdminOp)
    (h : SUPER_ADMINS ⊆ s.ADMINS) : SUPER_ADMINS ⊆ (applyOp SUPER_ADMINS s op).ADMINS := by
  cases op with
  | add actor payload =>
      by_cases hg : (add_admin_start SUPER_ADMINS actor [] s).1 = DialogState.add_admin
      · by_cases hh : payload.head? = some '@'
        · intro u hu
          simp [applyOp, hg, add_admin_handle, hh, save_config]
          exact Or.inr (h hu)
        · simpa [applyOp, hg, add_admin_handle, hh] using h
      · simpa [applyOp, hg] using h
  | rm actor args =>
      exact fun u hu => rm_admin_keeps_super _ _ _ _ _ hu (h hu)

/-- Any sequence of administrative operations preserves the
super-admins-are-admins invariant. -/
theorem foldl_applyOp_super_subset (SUPER_ADMINS : Finset String) (ops : List AdminOp)
    (s : BotState) (h : SUPER_ADMINS ⊆ s.ADMINS) :
    SUPER_ADMINS ⊆ (ops.foldl (applyOp SUPER_ADMINS) s).ADMINS := by
  induction ops generalizing s with
  | nil => exact h
  | cons op ops ih => exact ih _ (applyOp_super_subset _ _ _ h)

/-- C2 counterexample: with super admin alice, loading a persisted record
whose explicit admins list is empty yields a startup state where the admin
set is empty, so the Super Admins are not a subset of the admins. -/
theorem C2_counterexample :
    ¬ ({aliceS} : Finset String) ⊆
      startup_admins (startup {aliceS} (FileState.record none none (some []))) := by decide

/-- C2 (amended): from a startup whose persisted record is absent or lacks
the admins key, the Super Admins are a subset of the admin set in every
state reached by any sequence of add_admin and rm_admin operations, and
rm_admin never removes a Super Admin; when the record carries an explicit
admins list, the admin set is exactly that list, which need not contain
the Super Admins. -/
theorem C2_super_admins_subset (SUPER_ADMINS : Finset String) (fs : FileState)
    (s0 : BotState) (ops : List AdminOp)
    (hfs : admins_key_absent fs = true)
    (hok : startup SUPER_ADMINS fs = Except.ok s0) :
    SUPER_ADMINS ⊆ (ops.foldl (applyOp SUPER_ADMINS) s0).ADMINS ∧
    ∀ (s : BotState) (actor : String) (args : List String) (u : String),
      u ∈ SUPER_ADMINS → u ∈ s.ADMINS →
        u ∈ ((rm_admin SUPER_ADMINS actor args s).1).ADMINS := by
  have h0 : SUPER_ADMINS ⊆ s0.ADMINS := by
    cases fs with
    | absent =>
        have h : Except.ok (BotState.mk ∅ ∅ SUPER_ADMINS false FileState.absent) =
            Except.ok s0 := hok
        injection h with h
        rw [← h]
    | malformed =>
        exact Except.noConfusion
          (show Except.error LoadError.jsonDecodeError = Except.ok s0 from hok)
    | record o d a =>
        cases a with
        | none =>
            have h : Except.ok (BotState.mk (o.getD []).toFinset (d.getD []).toFinset
                SUPER_ADMINS false (FileState.record o d none)) = Except.ok s0 := hok
            injection h with h
            rw [← h]
        | some l => simp [admins_key_absent] at hfs
  exact ⟨foldl_applyOp_super_subset _ _ _ h0,
    fun s actor args u hu hm => rm_admin_keeps_super _ _ _ _ _ hu hm⟩

/-- C2 witness: from the absent-record startup with super admin alice,
adding bob and then removing admin number 1 keeps alice an admin. -/
theorem C2_witness :
    ({aliceS} : Finset String) ⊆
      (([AdminOp.add aliceS atBobS.data, AdminOp.rm aliceS [oneS]].foldl
        (applyOp {aliceS}) (BotState.mk ∅ ∅ {aliceS} false FileState.absent)).ADMINS) ∧
    ∀ (s : BotState) (actor : String) (args : List String) (u : String),
      u ∈ ({aliceS} : Finset String) → u ∈ s.ADMINS →
        u ∈ ((rm_admin {aliceS} actor args s).1).ADMINS :=
  C2_super_admins_subset {aliceS} FileState.absent
    (BotState.mk ∅ ∅ {aliceS} false FileState.absent)
    [AdminOp.add aliceS atBobS.data, AdminOp.rm aliceS [oneS]] rfl rfl

/-- C5: Transform yields output only for text starting with "[Alpha]"; no
marker or no matching rule yields no output; the first rule of the ordered
table whose pattern occurs is the one applied, replacing all occurrences
of the pattern; in particular the spec's example rewrites 发布新推文 to
"posted a new tweet", and a text with two pattern occurrences has both
replaced. -/
theorem C5_transform_first_match (text : List Char) :
    (markerS.data.isPrefixOf text = false → transform text = none) ∧
    ((∀ r ∈ TEXT_RULES, containsSub r.1 text = false) → transform text = none) ∧
    (∀ (i : Nat) (hi : i < TEXT_RULES.length),
      markerS.data.isPrefixOf text = true →
      containsSub (TEXT_RULES.get ⟨i, hi⟩).1 text = true →
      (∀ (j : Nat) (hj : j < i),
        containsSub (TEXT_RULES.get ⟨j, Nat.lt_trans hj hi⟩).1 text = false) →
      transform text =
        some (replaceAll (TEXT_RULES.get ⟨i, hi⟩).1 (TEXT_RULES.get ⟨i, hi⟩).2 text)) ∧
    transform exInS.data = some exOutS.data ∧
    containsSub ruleTweetEn.data exOutS.data = true ∧
    containsSub ruleTweetCn.data exOutS.data = false ∧
    transform exTwiceInS.data = some exTwiceOutS.data := by
  refine ⟨?_, ?_, ?_, by decide, by decide, by decide, by decide⟩
  · intro h
    simp [transform, h]
  · intro h
    unfold transform
    split
    · exact applyRules_eq_none _ _ h
    · rfl
  · intro i hi h1 h2 h3
    unfold transform
    rw [if_pos h1]
    exact applyRules_first TEXT_RULES text i hi h2 h3

/-- C5 witness: the theorem applied to concrete inputs — a marker-free
text, an eligible text matching no rule, and one eligible text per rule of
the table, each matched by exactly that rule. -/
theorem C5_witness :
    transform noMarkerS.data = none ∧
    transform noRuleS.data = none ∧
    transform exInS.data = some (replaceAll ruleTweetCn.data ruleTweetEn.data exInS.data) ∧
    transform exRtInS.data = some (replaceAll ruleRtCn.data ruleRtEn.data exRtInS.data) ∧
    transform exQtInS.data = some (replaceAll ruleQtCn.data ruleQtEn.data exQtInS.data) :=
  ⟨(C5_transform_first_match noMarkerS.data).1 (by decide),
   (C5_transform_first_match noRuleS.data).2.1 (by decide),
   (C5_transform_first_match exInS.data).2.2.1 0 (by decide) (by decide) (by decide)
     (fun j hj => absurd hj (Nat.not_lt_zero j)),
   (C5_transform_first_match exRtInS.data).2.2.1 1 (by decide) (by decide) (by decide)
     (fun j hj => by
       have hj0 : j = 0 := by omega
       subst hj0
       exact (by decide : containsSub ruleTweetCn.data exRtInS.data = false)),
   (C5_transform_first_match exQtInS.data).2.2.1 2 (by decide) (by decide) (by decide)
     (fun j hj => by
       have hj01 : j = 0 ∨ j = 1 := by omega
       rcases hj01 with hj0 | hj1
       · subst hj0
         exact (by decide : containsSub ruleTweetCn.data exQtInS.data = false)
       · subst hj1
         exact (by decide : containsSub ruleRtCn.data exQtInS.data = false))⟩

/-- C6: while paused, or when the origin is not configured, or when no
destination is configured, process_message attempts zero deliveries; and
it never changes the state. -/
theorem C6_gates_block_delivery (sendFails : Int → Bool) (s : BotState) (chatId : Int)
    (ctype : String) (text : List Char) :
    (s.IS_PAUSED = true → (process_message sendFails s chatId ctype text).1 = []) ∧
    (chatId ∉ s.ORIGIN_CHATS → (process_message sendFails s chatId ctype text).1 = []) ∧
    (s.DESTINATION_CHATS = ∅ → (process_message sendFails s chatId ctype text).1 = []) ∧
    (process_message sendFails s chatId ctype text).2 = s := by
  refine ⟨fun h => by simp [process_message, h], fun h => ?_,
    fun h => by simp [process_message, h], ?_⟩
  · by_cases h1 : s.IS_PAUSED = true ∨ s.ORIGIN_CHATS = ∅ ∨ s.DESTINATION_CHATS = ∅
    · simp [process_message, h1]
    · simp [process_message, h1, h]
  · unfold process_message
    split
    · rfl
    split
    · rfl
    cases htr : transform text with
    | none => rfl
    | some t =>
        dsimp only
        split <;> rfl

/-- C6 witness: the theorem applied to a paused state, to an inbound chat
outside the origin set, and to a state with no destinations. -/
theorem C6_witness :
    (process_message failNone pausedState 1 channelType exInS.data).1 = [] ∧
    (process_message failNone readyState 99 channelType exInS.data).1 = [] ∧
    (process_message failNone noDestState 1 channelType exInS.data).1 = [] :=
  ⟨(C6_gates_block_delivery failNone pausedState 1 channelType exInS.data).1 rfl,
   (C6_gates_block_delivery failNone readyState 99 channelType exInS.data).2.1 (by decide),
   (C6_gates_block_delivery failNone noDestState 1 channelType exInS.data).2.2.1 rfl⟩

/-- C7: which destinations are attempted does not depend on which
deliveries fail; when anything is delivered, each configured destination
is attempted exactly once; and each attempt's outcome is exactly its own
destination's failure status, so one failure never blocks the others. -/
theorem C7_fanout_independent (sendFails sendFails2 : Int → Bool) (s : BotState)
    (chatId : Int) (ctype : String) (text : List Char) :
    ((process_message sendFails s chatId ctype text).1.map SendOutcome.dest =
      (process_message sendFails2 s chatId ctype text).1.map SendOutcome.dest) ∧
    (∀ d : Int, d ∈ s.DESTINATION_CHATS →
      (process_message sendFails s chatId ctype text).1 ≠ [] →
      ((process_message sendFails s chatId ctype text).1.map SendOutcome.dest).count d = 1) ∧
    (∀ o ∈ (process_message sendFails s chatId ctype text).1, o.ok = !sendFails o.dest) := by
  have hshape : (∀ f : Int → Bool, (process_message f s chatId ctype text).1 = []) ∨
      (∃ t, ∀ f : Int → Bool, (process_message f s chatId ctype text).1 =
        (sortedList s.DESTINATION_CHATS).map fun d => SendOutcome.mk d (!f d) t) := by
    by_cases h1 : s.IS_PAUSED = true ∨ s.ORIGIN_CHATS = ∅ ∨ s.DESTINATION_CHATS = ∅
    · exact Or.inl fun f => by simp [process_message, h1]
    by_cases h2 : chatId ∉ s.ORIGIN_CHATS ∨ ctype ≠ channelType
    · exact Or.inl fun f => by simp [process_message, h1, h2]
    cases htr : transform text with
    | none => exact Or.inl fun f => by simp [process_message, h1, h2, htr]
    | some t =>
        by_cases ht : t = []
        · exact Or.inl fun f => by simp [process_message, h1, h2, htr, ht]
        · exact Or.inr ⟨t, fun f => by simp [process_message, h1, h2, htr, ht]⟩
  refine ⟨?_, ?_, ?_⟩
  · rcases hshape with h | ⟨t, h⟩
    · rw [h sendFails, h sendFails2]
    · rw [h sendFails, h sendFails2]
      simp [List.map_map, Function.comp]
  · intro d hd hne
    rcases hshape with h | ⟨t, h⟩
    · exact absurd (h sendFails) hne
    · rw [h sendFails]
      simp only [List.map_map]
      have hid : (SendOutcome.dest ∘ fun d => SendOutcome.mk d (!sendFails d) t) =
          fun d : Int => d := rfl
      rw [hid, List.map_id']
      exact List.count_eq_one_of_mem (sortedList_nodup _) ((mem_sortedList _ _).mpr hd)
  · intro o ho
    rcases hshape with h | ⟨t, h⟩
    · rw [h sendFails] at ho
      cases ho
    · rw [h sendFails] at ho
      simp only [List.mem_map] at ho
      obtain ⟨d, _, rfl⟩ := ho
      rfl

/-- C7 witness: three destinations 1, 2, 3 with delivery to 2 failing —
destinations 1 and 3 each still receive the message exactly once. -/
theorem C7_witness :
    ((process_message failsTwo fanoutState 10 channelType exInS.data).1.map
      SendOutcome.dest).count 1 = 1 ∧
    ((process_message failsTwo fanoutState 10 channelType exInS.data).1.map
      SendOutcome.dest).count 3 = 1 :=
  ⟨(C7_fanout_independent failsTwo failsTwo fanoutState 10 channelType exInS.data).2.1
      1 (by decide) (by decide),
   (C7_fanout_independent failsTwo failsTwo fanoutState 10 channelType exInS.data).2.1
      3 (by decide) (by decide)⟩

/-- C8: an actor who is neither a Super Admin nor an Admin gets a
user-visible denial from every privileged command (check_admin is false,
and each command reports the denial), and every such command returns the
state — origins, destinations, admins, pause flag, persisted record —
completely unchanged. -/
theorem C8_unprivileged_noop (SUPER_ADMINS : Finset String) (user : String)
    (args : List String) (s : BotState)
    (hsa : user ∉ SUPER_ADMINS) (had : user ∉ s.ADMINS) :
    check_admin SUPER_ADMINS s user = false ∧
    set_origin_start SUPER_ADMINS user args s = (DialogState.idle, s, true) ∧
    set_destination_start SUPER_ADMINS user args s = (DialogState.idle, s, true) ∧
    add_admin_start SUPER_ADMINS user args s = (DialogState.idle, s, true) ∧
    rm_admin SUPER_ADMINS user args s = (s, true) ∧
    pause SUPER_ADMINS user s = (s, true) ∧
    resume SUPER_ADMINS user s = (s, true) ∧
    status SUPER_ADMINS user s = (s, true) := by
  have hc : check_admin SUPER_ADMINS s user = false := by
    simp [check_admin, hsa, had]
  refine ⟨hc, ?_, ?_, ?_, ?_, ?_, ?_, ?_⟩ <;>
    simp [set_origin_start, set_destination_start, add_admin_start, rm_admin,
      pause, resume, status, hc, hsa]

/-- C8 witness: the theorem applied to the unprivileged actor bob against
the state whose only admin is the super admin alice. -/
theorem C8_witness :
    check_admin {aliceS} demoAdminState bobS = false ∧
    set_origin_start {aliceS} bobS [oneS] demoAdminState =
      (DialogState.idle, demoAdminState, true) ∧
    set_destination_start {aliceS} bobS [oneS] demoAdminState =
      (DialogState.idle, demoAdminState, true) ∧
    add_admin_start {aliceS} bobS [oneS] demoAdminState =
      (DialogState.idle, demoAdminState, true) ∧
    rm_admin {aliceS} bobS [oneS] demoAdminState = (demoAdminState, true) ∧
    pause {aliceS} bobS demoAdminState = (demoAdminState, true) ∧
    resume {aliceS} bobS demoAdminState = (demoAdminState, true) ∧
    status {aliceS} bobS demoAdminState = (demoAdminState, true) :=
  C8_unprivileged_noop {aliceS} bobS [oneS] demoAdminState (by decide) (by decide)

/-- C9: applying set_origin_handle (respectively set_destination_handle)
twice with the same input leaves exactly the state — in particular the
same in-memory set and the same persisted record — reached after applying
it once. -/
theorem C9_set_idempotent (input : List Char) (s : BotState) :
    (set_origin_handle input (set_origin_handle input s).2).2 =
      (set_origin_handle input s).2 ∧
    (set_destination_handle input (set_destination_handle input s).2).2 =
      (set_destination_handle input s).2 := by
  rcases hp : parseIds (splitWs input) with _ | ids
  · constructor <;> simp [set_origin_handle, set_destination_handle, hp]
  · cases s
    constructor <;> simp [set_origin_handle, set_destination_handle, hp, save_config]

/-- C10: the persisted record holds exactly the three fields origin_chats,
destination_chats, admins; it is unaffected by the pause flag; pause and
resume write the identical record from the same prior state; and every
successful startup begins unpaused. -/
theorem C10_record_never_holds_pause (s : BotState) (b : Bool)
    (SUPER_ADMINS : Finset String) (user : String) (fs : FileState) (s2 : BotState)
    (hok : startup SUPER_ADMINS fs = Except.ok s2) :
    (save_config { s with IS_PAUSED := b }).file = (save_config s).file ∧
    (∃ o d a, (save_config s).file = FileState.record (some o) (some d) (some a)) ∧
    (pause SUPER_ADMINS user s).1.file = (resume SUPER_ADMINS user s).1.file ∧
    s2.IS_PAUSED = false := by
  refine ⟨rfl, ⟨_, _, _, rfl⟩, ?_, ?_⟩
  · by_cases hc : check_admin SUPER_ADMINS s user = false <;>
      simp [pause, resume, hc, save_config]
  · rcases hl : load_config SUPER_ADMINS fs with e | c
    · rw [startup, hl] at hok
      exact Except.noConfusion hok
    · rw [startup, hl] at hok
      injection hok with hok
      rw [← hok]

/-- C10 witness: the theorem applied to the paused demo state and the
absent-record startup. -/
theorem C10_witness :
    (save_config { pausedState with IS_PAUSED := false }).file =
      (save_config pausedState).file ∧
    (∃ o d a, (save_config pausedState).file =
      FileState.record (some o) (some d) (some a)) ∧
    (pause {aliceS} aliceS pausedState).1.file =
      (resume {aliceS} aliceS pausedState).1.file ∧
    (BotState.mk ∅ ∅ {aliceS} false FileState.absent).IS_PAUSED = false :=
  C10_record_never_holds_pause pausedState false {aliceS} aliceS FileState.absent
    (BotState.mk ∅ ∅ {aliceS} false FileState.absent) rfl

end BidBot
